import Mathlib

/-!
Verification development for the Amazing Marvin MCP adapter.

This file gives a shallow embedding, in Lean, of the core logic of the
repository:

* the change-feed-gated document cache of `MarvinAPI`
  (`_check_changes`, `_fetch_documents`, `get_categories`, `get_tasks`),
* the friendly-ID registry of `MarvinAdapter`
  (`_get_friendly_project_id` / `_get_friendly_task_id` /
  `_get_friendly_category_id`, `get_real_project_id` / `get_real_task_id` /
  `get_real_category_id`, `initialize_id_maps`),
* time-estimate parsing and formatting
  (`parse_time_estimate`, `_parse_single_time_part`, `format_time_estimate`,
  `_convert_time_estimate`),
* hierarchy assembly (`build_hierarchy`, `_process_task`,
  `_process_category`),
* the create operations (`create_task`, `create_project`, `create_category`).

Python dictionaries are modelled as association lists with insert-overwrite
semantics, Python's `sorted` (a stable sort) as a stable insertion sort,
Python string formatting of a nonnegative integer as a decimal renderer
`natStr`, and Python's `float()` on plain decimal literals as an exact
decimal parser `pyFloat`.  I/O against the CouchDB store is modelled by a
`Store` record of (possibly failing) probe and query functions; exceptions
are modelled with `Except`.
-/

/-! ### Python-style helpers -/

/-- Decimal digits of `n`, most significant first, computed with fuel so the
definition is structural (and hence kernel-reducible).  `natStr` below always
supplies enough fuel.  Models how Python's `str`/f-strings render a
nonnegative integer. -/
def natStrAux : Nat → Nat → List Char
  | 0, _ => []
  | fuel + 1, n =>
    if n < 10 then [Nat.digitChar n]
    else natStrAux fuel (n / 10) ++ [Nat.digitChar (n % 10)]

/-- Decimal string of a natural number (model of Python `str(n)` for `n ≥ 0`). -/
def natStr (n : Nat) : String := ⟨natStrAux (n + 1) n⟩

/-- Recover the value of a decimal digit string; left inverse of `natStrAux`. -/
def digitsVal (cs : List Char) : Nat :=
  cs.foldl (fun a c => a * 10 + (c.toNat - 48)) 0

/-- Python truthiness filter on an optional string: `if s:` succeeds exactly
when the value is present and non-empty. -/
def truthyStr : Option String → Option String
  | none => none
  | some s => if s = "" then none else some s

/-- Python truthiness filter on an optional number: `if n:` succeeds exactly
when the value is present and non-zero. -/
def truthyNat : Option Nat → Option Nat
  | none => none
  | some n => if n = 0 then none else some n

/-- Python `a or b` for an optional string `a` and a string `b`:
`None` and `""` are falsy. -/
def pyOrStr (o : Option String) (d : String) : String :=
  match o with
  | none => d
  | some s => if s = "" then d else s

/-- Python `s.startswith(c)` for a single character `c`. -/
def strHeadIs (s : String) (c : Char) : Bool := s.data.head? == some c

/-- Python `s.endswith(c)` for a single character `c`. -/
def strLastIs (s : String) (c : Char) : Bool := s.data.getLast? == some c

/-- Python `s[:-1]`. -/
def dropLastStr (s : String) : String := ⟨s.data.dropLast⟩

/-- Association-list lookup; models Python `d[k]` / `k in d` on a dict. -/
def lookupA {β : Type} : List (String × β) → String → Option β
  | [], _ => none
  | p :: r, k => if p.1 = k then some p.2 else lookupA r k

/-- Association-list insert with Python-dict semantics: overwriting an
existing key keeps its position, a new key is appended at the end. -/
def dictInsert {β : Type} (m : List (String × β)) (k : String) (v : β) :
    List (String × β) :=
  if m.any (fun p => p.1 = k) then
    m.map (fun p => if p.1 = k then (k, v) else p)
  else m ++ [(k, v)]

/-! ### Documents -/

/-- A CouchDB document as used by this repository.  `id` is the mandatory
`_id` field; every other field is optional (absent = `none`).  `priority`
and `isStarred` are modelled as numbers (the spec's 1–3 range), `createdAt`
as an integer timestamp, `timeEstimate` as milliseconds.  `fieldUpdates` is
reduced to a presence flag, which is all the cache layer inspects. -/
structure Doc where
  id : String
  parentId : Option String := none
  title : Option String := none
  type : Option String := none
  priority : Option Nat := none
  dueDate : Option String := none
  done : Option Bool := none
  createdAt : Option Int := none
  timeEstimate : Option Nat := none
  isStarred : Option Nat := none
  day : Option String := none
  fieldUpdates : Bool := false
deriving DecidableEq

/-- `del doc["fieldUpdates"]` (performed on every freshly fetched document). -/
def stripFieldUpdates (d : Doc) : Doc := { d with fieldUpdates := false }

/-! ### Change-gated cache (`src/src/amazing_marvin_mcp/marvin.py`) -/

/-- The store's answer to one `_changes` probe: whether any change event
matched the selector, and the feed's reported `last_seq`. -/
structure FeedResponse where
  resultsNonempty : Bool
  lastSeq : String
deriving DecidableEq

/-- The remote store, restricted to one collection selector: a change-feed
probe indexed by the supplied cursor, and a find query.  Either operation can
fail (network/query failure), modelled by `Except String`. -/
structure Store where
  check : String → Except String FeedResponse
  find : Except String (List Doc)

/-- `MarvinAPI._check_changes`: probe the `_changes` feed since `lastSeq`.
Returns the new `last_seq` when changes were found, or when the supplied
cursor was the initial sentinel `"0"`; returns `none` when a non-initial
cursor saw no changes.  Failures propagate. -/
def check_changes (st : Store) (lastSeq : String) : Except String (Option String) :=
  match st.check lastSeq with
  | .error e => .error e
  | .ok ch =>
    if !ch.resultsNonempty then
      if lastSeq = "0" then .ok (some ch.lastSeq) else .ok none
    else .ok (some ch.lastSeq)

/-- `MarvinAPI._fetch_documents`: change-gated fetch.  Returns the documents
and the new cursor, plus a flag recording whether a `_find` query was issued
(used to state the no-fetch property of the hot path).  On the hot path
(no changes, non-initial cursor, cache present) the cached list is returned
unchanged with the old cursor and no find query. -/
def fetch_documents (st : Store) (cache : Option (List Doc)) (lastSeq : String) :
    Except String (List Doc × String) × Bool :=
  match check_changes st lastSeq with
  | .error e => (.error e, false)
  | .ok newSeq =>
    match newSeq, cache with
    | none, some c => (.ok (c, lastSeq), false)
    | nsq, _ =>
      match st.find with
      | .error e => (.error e, true)
      | .ok docs =>
        let docs := docs.map stripFieldUpdates
        match nsq with
        | none =>
          match check_changes st "0" with
          | .error e => (.error e, true)
          | .ok cur => (.ok (docs, pyOrStr cur lastSeq), true)
        | some s => (.ok (docs, s), true)

/-- Per-collection cache state of a `MarvinAPI` instance: the cached document
list (or `None`) and the stored change-feed cursor. -/
structure CacheState where
  cache : Option (List Doc)
  lastSeq : String
deriving DecidableEq

/-- `MarvinAPI.get_categories`: run the change-gated fetch against the
categories selector, commit the result to the cache, and on any failure drop
the cache, reset the cursor to `'0'` and re-raise.  Returns the result, the
new cache state, and the find-issued flag. -/
def get_categories (st : Store) (s : CacheState) :
    Except String (List Doc) × CacheState × Bool :=
  match fetch_documents st s.cache s.lastSeq with
  | (.ok (docs, seq), issued) => (.ok docs, ⟨some docs, seq⟩, issued)
  | (.error e, issued) => (.error e, ⟨none, "0"⟩, issued)

/-- `MarvinAPI.get_tasks` with no parent filter: identical change-gated read
against the tasks selector and the tasks cache. -/
def get_tasks_all (st : Store) (s : CacheState) :
    Except String (List Doc) × CacheState × Bool :=
  match fetch_documents st s.cache s.lastSeq with
  | (.ok (docs, seq), issued) => (.ok docs, ⟨some docs, seq⟩, issued)
  | (.error e, issued) => (.error e, ⟨none, "0"⟩, issued)

/-! ### Friendly-ID registry (`src/src/amazing_marvin_mcp/adapter.py`) -/

/-- Adapter error taxonomy (`MarvinAdapterError` and its subclasses). -/
inductive AdapterErr where
  | adapterError (msg : String)
  | invalidProjectId (fid : String)
  | invalidTaskId (fid : String)
  | invalidTimeEstimate (s : String)
deriving DecidableEq

/-- The friendly-ID registry state of a `MarvinAdapter`: forward and reverse
maps for each of the three namespaces, plus the next free counter of each. -/
structure Reg where
  projMap : List (String × String)
  projRev : List (String × String)
  catMap : List (String × String)
  catRev : List (String × String)
  taskMap : List (String × String)
  taskRev : List (String × String)
  nextProj : Nat
  nextCat : Nat
  nextTask : Nat
deriving DecidableEq

/-- Registry state right after `MarvinAdapter.__init__` set up the maps
(before the bulk pass): all maps empty except the reserved Inbox binding
`"unassigned" ↔ "p0"`, every counter at 1. -/
def freshReg : Reg :=
  { projMap := [("unassigned", "p0")]
    projRev := [("p0", "unassigned")]
    catMap := []
    catRev := []
    taskMap := []
    taskRev := []
    nextProj := 1
    nextCat := 1
    nextTask := 1 }

/-- `MarvinAdapter._get_friendly_project_id`. -/
def get_friendly_project_id (reg : Reg) (uuid : String) : Reg × String :=
  if uuid = "" then (reg, "")
  else
    match lookupA reg.projMap uuid with
    | some fid => (reg, fid)
    | none =>
      let fid := "p" ++ natStr reg.nextProj
      ({ reg with
          projMap := dictInsert reg.projMap uuid fid
          projRev := dictInsert reg.projRev fid uuid
          nextProj := reg.nextProj + 1 }, fid)

/-- `MarvinAdapter._get_friendly_task_id`. -/
def get_friendly_task_id (reg : Reg) (uuid : String) : Reg × String :=
  if uuid = "" then (reg, "")
  else
    match lookupA reg.taskMap uuid with
    | some fid => (reg, fid)
    | none =>
      let fid := "t" ++ natStr reg.nextTask
      ({ reg with
          taskMap := dictInsert reg.taskMap uuid fid
          taskRev := dictInsert reg.taskRev fid uuid
          nextTask := reg.nextTask + 1 }, fid)

/-- `MarvinAdapter._get_friendly_category_id`. -/
def get_friendly_category_id (reg : Reg) (uuid : String) : Reg × String :=
  if uuid = "" then (reg, "")
  else
    match lookupA reg.catMap uuid with
    | some fid => (reg, fid)
    | none =>
      let fid := "c" ++ natStr reg.nextCat
      ({ reg with
          catMap := dictInsert reg.catMap uuid fid
          catRev := dictInsert reg.catRev fid uuid
          nextCat := reg.nextCat + 1 }, fid)

/-- `MarvinAdapter.get_real_project_id` (no prefix check in the source). -/
def get_real_project_id (reg : Reg) (fid : String) : Except AdapterErr String :=
  if fid = "" then .error (.adapterError "Project ID cannot be empty.")
  else
    match lookupA reg.projRev fid with
    | some uuid => .ok uuid
    | none => .error (.invalidProjectId fid)

/-- `MarvinAdapter.get_real_task_id` (requires the `t` prefix). -/
def get_real_task_id (reg : Reg) (fid : String) : Except AdapterErr String :=
  if fid = "" then .error (.adapterError "Task ID cannot be empty.")
  else if !strHeadIs fid 't' then .error (.invalidTaskId fid)
  else
    match lookupA reg.taskRev fid with
    | some uuid => .ok uuid
    | none => .error (.invalidTaskId fid)

/-- `MarvinAdapter.get_real_category_id` (requires the `c` prefix; raises the
base `MarvinAdapterError`). -/
def get_real_category_id (reg : Reg) (fid : String) : Except AdapterErr String :=
  if fid = "" then .error (.adapterError "Category ID cannot be empty.")
  else if !strHeadIs fid 'c' then
    .error (.adapterError ("Invalid category ID: " ++ fid))
  else
    match lookupA reg.catRev fid with
    | some uuid => .ok uuid
    | none => .error (.adapterError ("Invalid category ID: " ++ fid))

/-- Stable insert for the stable insertion sort below: `x` is placed before
the first element whose key is `≥ key x`, so equal keys keep their original
relative order. -/
def insertByKey (key : Doc → Int) (x : Doc) : List Doc → List Doc
  | [] => [x]
  | y :: ys => if key y < key x then y :: insertByKey key x ys else x :: y :: ys

/-- Stable insertion sort by an integer key; models Python's stable
`sorted(l, key=...)` (any two stable sorts of the same key agree). -/
def sortByKey (key : Doc → Int) : List Doc → List Doc
  | [] => []
  | x :: xs => insertByKey key x (sortByKey key xs)

/-- Sort documents by ascending `createdAt`, documents missing `createdAt`
sorting as 0 (`key=lambda c: c.get('createdAt', 0)`). -/
def sortByCreatedAt (l : List Doc) : List Doc :=
  sortByKey (fun d => d.createdAt.getD 0) l

/-- `MarvinAdapter.initialize_id_maps` applied to the two fetched document
lists: split containers into categories (`type == "category"`) and projects
(everything else), sort each group and the work-units by ascending
`createdAt`, and resolve a token for every document in order — categories,
then projects, then tasks. -/
def init_id_maps (reg : Reg) (categories tasks : List Doc) : Reg :=
  let cat_categories := categories.filter (fun c => c.type == some "category")
  let cat_projects := categories.filter (fun c => !(c.type == some "category"))
  let reg1 := (sortByCreatedAt cat_categories).foldl
    (fun r c => (get_friendly_category_id r c.id).1) reg
  let reg2 := (sortByCreatedAt cat_projects).foldl
    (fun r c => (get_friendly_project_id r c.id).1) reg1
  (sortByCreatedAt tasks).foldl (fun r t => (get_friendly_task_id r t.id).1) reg2

/-! ### Time estimates -/

/-- An exact decimal number `num / 10 ^ scale`; the value domain of the model
of Python `float()` used by the time-estimate parser (all arithmetic the
parser performs on these values is exact in Python as well for the decimal
magnitudes it accepts). -/
structure DecNum where
  num : Int
  scale : Nat
deriving DecidableEq

/-- Multiply a decimal number by a natural constant (`hours * 60`). -/
def decMulNat (d : DecNum) (k : Nat) : DecNum := ⟨d.num * k, d.scale⟩

/-- Add two decimal numbers (`total_minutes += minutes`). -/
def decAdd (a b : DecNum) : DecNum :=
  let s := max a.scale b.scale
  ⟨a.num * (10 : Int) ^ (s - a.scale) + b.num * (10 : Int) ^ (s - b.scale), s⟩

/-- Parse a nonempty all-digit character list to its value. -/
def parseDigits (cs : List Char) : Option Nat :=
  if cs ≠ [] && cs.all Char.isDigit then some (digitsVal cs) else none

/-- Split a character list at the first occurrence of `e`/`E` (exponent
separator), if any. -/
def splitExp : List Char → List Char × Option (List Char)
  | [] => ([], none)
  | c :: r =>
    if c = 'e' || c = 'E' then ([], some r)
    else
      let (m, ex) := splitExp r
      (c :: m, ex)

/-- Split a character list at the first `.`, if any. -/
def splitDot : List Char → List Char × Option (List Char)
  | [] => ([], none)
  | c :: r =>
    if c = '.' then ([], some r)
    else
      let (m, f) := splitDot r
      (c :: m, f)

/-- Parse an optionally signed nonempty digit string to an integer
(exponent part of a float literal). -/
def parseSignedInt (cs : List Char) : Option Int :=
  match cs with
  | '-' :: r => (parseDigits r).map (fun n => -(n : Int))
  | '+' :: r => (parseDigits r).map (fun n => (n : Int))
  | r => (parseDigits r).map (fun n => (n : Int))

/-- Model of Python's `float()` on plain decimal literals: optional sign,
digits with an optional decimal point (at least one digit overall), optional
`e`/`E` exponent with optional sign.  Returns the exact decimal value.
Python's extra float syntax (whitespace, underscores, `inf`, `nan`, hex) is
out of the model; the parser rejects such strings. -/
def pyFloat (s : String) : Option DecNum :=
  let (sgn, cs) :=
    match s.data with
    | '-' :: r => ((-1 : Int), r)
    | '+' :: r => ((1 : Int), r)
    | r => ((1 : Int), r)
  let (mant, expPart) := splitExp cs
  let (intPart, fracPart) := splitDot mant
  let mantVal :=
    match fracPart with
    | none => (parseDigits intPart).map (fun n => (n, 0))
    | some f =>
      if intPart ++ f ≠ [] && (intPart ++ f).all Char.isDigit then
        some (digitsVal (intPart ++ f), f.length)
      else none
  match mantVal with
  | none => none
  | some (m, k) =>
    match expPart with
    | none => some ⟨sgn * m, k⟩
    | some ex =>
      match parseSignedInt ex with
      | none => none
      | some e =>
        let t : Int := e - k
        if 0 ≤ t then some ⟨sgn * m * (10 : Int) ^ t.toNat, 0⟩
        else some ⟨sgn * m, (-t).toNat⟩

/-- `MarvinAdapter._parse_single_time_part`: `"1.5h"` → hours × 60 minutes,
`"30m"` → minutes, a bare number → minutes; anything `float()` rejects is a
parse failure (`None`). -/
def parse_single_time_part (part : String) : Option DecNum :=
  if strLastIs part 'h' then (pyFloat (dropLastStr part)).map (decMulNat · 60)
  else if strLastIs part 'm' then pyFloat (dropLastStr part)
  else pyFloat part

/-- Python `time_str.split()` restricted to spaces: split on runs of
spaces, dropping empty pieces. -/
def pySplitSpace (s : String) : List String :=
  ((s.data.splitOn ' ').map (fun l => (⟨l⟩ : String))).filter (fun p => p ≠ "")

/-- The parts loop of `parse_time_estimate`: left-to-right accumulation of
part values; `none` as soon as any part fails to parse. -/
def sumParts (parts : List String) : Option DecNum :=
  parts.foldl
    (fun acc p =>
      match acc, parse_single_time_part p with
      | some t, some m => some (decAdd t m)
      | _, _ => none)
    (some ⟨0, 0⟩)

/-- `MarvinAdapter.parse_time_estimate`: empty input yields `None`; a
space-joined combination sums its parts, a single unit parses directly; a
failed part or a non-positive total raises `InvalidTimeEstimateError`;
otherwise the total in minutes is converted to integer milliseconds. -/
def parse_time_estimate (time_str : String) : Except AdapterErr (Option Int) :=
  if time_str = "" then .ok none
  else
    let totalOpt :=
      if time_str.data.contains ' ' then sumParts (pySplitSpace time_str)
      else parse_single_time_part time_str
    match totalOpt with
    | none => .error (.invalidTimeEstimate time_str)
    | some total =>
      if 0 < total.num then
        .ok (some (total.num * 60000 / (10 : Int) ^ total.scale))
      else .error (.invalidTimeEstimate time_str)

/-- Round `n / d` to the nearest integer, ties to even (the rounding of
Python's `f"{x:.1f}"` at exactly representable points). -/
def roundHalfEvenDiv (n d : Nat) : Nat :=
  let q := n / d
  let r := n % d
  if 2 * r < d then q
  else if d < 2 * r then q + 1
  else if q % 2 = 0 then q else q + 1

/-- Hours with one decimal digit, as rendered by `f"{hours:.1f}"` for
`hours = ms / 3600000`. -/
def fmtOneDecimal (ms : Nat) : String :=
  let deci := roundHalfEvenDiv (ms * 10) 3600000
  natStr (deci / 10) ++ "." ++ natStr (deci % 10)

/-- `MarvinAdapter.format_time_estimate`: `None` maps to `None`; below one
hour, whole minutes with an `m` suffix (`int()` truncation); exact hours as
whole hours with an `h` suffix; otherwise hours to one decimal place.
Note `format_time_estimate(0)` is `"0m"` — the `0`-guard lives in the
callers (`_process_task` / `_convert_time_estimate`). -/
def format_time_estimate (milliseconds : Option Nat) : Option String :=
  match milliseconds with
  | none => none
  | some ms =>
    if ms < 3600000 then some (natStr (ms / 60000) ++ "m")
    else if ms % 3600000 = 0 then some (natStr (ms / 3600000) ++ "h")
    else some (fmtOneDecimal ms ++ "h")

/-- `MarvinAPI._convert_time_estimate` (`src/marvin.py`): identical
formatting, but `if not ms` maps both `None` and `0` to `None`. -/
def convert_time_estimate (ms : Option Nat) : Option String :=
  match ms with
  | none => none
  | some m =>
    if m = 0 then none
    else if m < 3600000 then some (natStr (m / 60000) ++ "m")
    else if m % 3600000 = 0 then some (natStr (m / 3600000) ++ "h")
    else some (fmtOneDecimal m ++ "h")

/-! ### Hierarchy builder (`MarvinAdapter.build_hierarchy`) -/

/-- The compact work-unit record produced by `MarvinAdapter._process_task`:
a dict with mandatory `"t"`/`"id"` keys and optional `"due"`/`"est"`/`"pri"`
keys (`none` = key absent). -/
structure TaskSummary where
  t : String
  id : String
  due : Option String
  est : Option String
  pri : Option Nat
deriving DecidableEq

/-- `MarvinAdapter._process_task`: title (default `"Untitled Task"`) and
friendly ID always; due date, formatted time estimate and priority only when
truthy.  Threads the registry state (a task may be assigned its token
here). -/
def process_task (reg : Reg) (task : Doc) : Reg × TaskSummary :=
  let (reg1, fid) := get_friendly_task_id reg task.id
  let est :=
    match truthyNat task.timeEstimate with
    | some m => truthyStr (format_time_estimate (some m))
    | none => none
  (reg1,
    { t := task.title.getD "Untitled Task"
      id := fid
      due := truthyStr task.dueDate
      est := est
      pri := truthyNat task.isStarred })

/-- `MarvinAdapter._process_category`: resolve the friendly ID in the
category or project namespace according to the `type` discriminator, and keep
truthy `priority`/`dueDate`.  Returns `(id, pri, due)`. -/
def process_category (reg : Reg) (cat : Doc) : Reg × (String × Option Nat × Option String) :=
  let is_category := cat.type == some "category"
  let (reg1, fid) :=
    if is_category then get_friendly_category_id reg cat.id
    else get_friendly_project_id reg cat.id
  (reg1, (fid, truthyNat cat.priority, truthyStr cat.dueDate))

/-- A node of the hierarchy tree: the dict built by
`process_category_recursive` (and for the Inbox).  `id` is always present;
`pri`, `due`, `tasks` and `sub` are optional keys (`none` = key absent).
`sub` is an insertion-ordered dict from child title to child node. -/
inductive HNode where
  | mk (id : String) (pri : Option Nat) (due : Option String)
      (tasks : Option (List TaskSummary))
      (sub : Option (List (String × HNode))) : HNode

/-- The `tasks` field of a node. -/
def HNode.tasksOf : HNode → Option (List TaskSummary)
  | .mk _ _ _ tasks _ => tasks

/-- The `sub` field of a node. -/
def HNode.subOf : HNode → Option (List (String × HNode))
  | .mk _ _ _ _ sub => sub

/-- Process a list of work-units in order (the task list comprehension of
`process_category_recursive`), threading the registry. -/
def processTasks (reg : Reg) : List Doc → Reg × List TaskSummary
  | [] => (reg, [])
  | t :: ts =>
    let (reg1, s) := process_task reg t
    let (reg2, rest) := processTasks reg1 ts
    (reg2, s :: rest)

/-- `process_category_recursive` (the inner function of
`MarvinAdapter.build_hierarchy`): build `item`'s node — its
`id`/`pri`/`due`, its `tasks` list (present only when non-empty), and its
`sub` dict over the containers whose `parentId` is `item` (present only when
such containers exist), built by inserting each child's node under its title
(last write wins on duplicate titles).  Recursion is fuelled: the Python
original recurses on a parent-pointer graph and does not terminate on a
cycle; with `fuel` larger than the container count the model agrees with the
source on every input the source terminates on.  Out of fuel, an empty node
is returned. -/
def processCatRec : Nat → List Doc → List Doc → Reg → Doc → Reg × HNode
  | 0, _, _, reg, _ => (reg, .mk "" none none none none)
  | fuel + 1, categories, tasks, reg, item =>
    let (reg1, base) := process_category reg item
    let children := tasks.filter (fun t => t.parentId == some item.id)
    let (reg2, tlist) := processTasks reg1 children
    let subs := categories.filter (fun c => c.parentId == some item.id)
    let folded := subs.foldl
      (fun (acc : Reg × List (String × HNode)) sub =>
        let (r2, node) := processCatRec fuel categories tasks acc.1 sub
        (r2, dictInsert acc.2 (sub.title.getD "Untitled") node))
      (reg2, [])
    (folded.1,
      .mk base.1 base.2.1 base.2.2
        (if tlist.isEmpty then none else some tlist)
        (if subs.isEmpty then none else some folded.2))

/-- The Inbox-assembly step of `MarvinAdapter.build_hierarchy`: when there is
at least one container or work-unit with parentId `"unassigned"`, build the
synthetic `"Inbox"` entry (id `"p0"`, with `sub` over the unassigned
containers and `tasks` over the unassigned work-units, each key present only
when non-empty); otherwise contribute nothing. -/
def inbox_entry (fuel : Nat) (categories tasks : List Doc) (reg : Reg) :
    Reg × List (String × HNode) :=
  let inbox_categories := categories.filter (fun c => c.parentId == some "unassigned")
  let inbox_tasks := tasks.filter (fun t => t.parentId == some "unassigned")
  if inbox_categories.isEmpty && inbox_tasks.isEmpty then (reg, [])
  else
    let withSub : Reg × Option (List (String × HNode)) :=
      if inbox_categories.isEmpty then (reg, none)
      else
        let folded := inbox_categories.foldl
          (fun (acc : Reg × List (String × HNode)) cat =>
            let (r2, node) := processCatRec fuel categories tasks acc.1 cat
            (r2, dictInsert acc.2 (cat.title.getD "Untitled Category") node))
          (reg, [])
        (folded.1, some folded.2)
    let withTasks : Reg × Option (List TaskSummary) :=
      if inbox_tasks.isEmpty then (withSub.1, none)
      else
        let pt := processTasks withSub.1 inbox_tasks
        (pt.1, some pt.2)
    (withTasks.1, [("Inbox", .mk "p0" none none withTasks.2 withSub.2)])

/-- `MarvinAdapter.build_hierarchy` applied to the fetched document lists:
the synthetic `"Inbox"` entry is inserted first when there is at least one
unassigned member (`inbox_entry`); then one entry per root container
(parentId `"root"` or falsy), keyed by title, last write wins.  Returns the
final registry and the top-level insertion-ordered dict. -/
def build_hierarchy (fuel : Nat) (categories tasks : List Doc) (reg : Reg) :
    Reg × List (String × HNode) :=
  let root_categories := categories.filter
    (fun c => c.parentId == some "root" || (truthyStr c.parentId == none))
  root_categories.foldl
    (fun (acc : Reg × List (String × HNode)) rc =>
      let (r2, node) := processCatRec fuel categories tasks acc.1 rc
      (r2, dictInsert acc.2 (rc.title.getD "Untitled") node))
    (inbox_entry fuel categories tasks reg)

/-- The hierarchy invariant behind claim C10: every `tasks` key holds a
non-empty list and every `sub` key holds a non-empty dict whose values again
satisfy the invariant. -/
def nodeOk : HNode → Bool
  | .mk _ _ _ tasks sub =>
    (match tasks with
     | none => true
     | some l => !l.isEmpty) &&
    (match sub with
     | none => true
     | some l => !l.isEmpty && subNodesOk l)
where
  /-- All nodes of a `sub` dict satisfy `nodeOk`. -/
  subNodesOk : List (String × HNode) → Bool
  | [] => true
  | p :: r => nodeOk p.2 && subNodesOk r

/-- A node (or one of its descendants) carries an explicitly empty `tasks`
array — the shape whose serialization takes the `'"tasks": []'` branch of
`build_hierarchy_string`'s `compact_tasks`. -/
def hasEmptyTasks : HNode → Bool
  | .mk _ _ _ tasks sub =>
    (match tasks with
     | none => false
     | some l => l.isEmpty) ||
    (match sub with
     | none => false
     | some l => subHasEmptyTasks l)
where
  /-- Some node of a `sub` dict satisfies `hasEmptyTasks`. -/
  subHasEmptyTasks : List (String × HNode) → Bool
  | [] => false
  | p :: r => hasEmptyTasks p.2 || subHasEmptyTasks r

/-! ### Create operations (`MarvinAdapter.create_task` / `create_project` /
`create_category`) -/

/-- The request handed to the `MarvinAPI` create call — the first store
interaction of a create operation (the API call itself first issues a fetch
for rank computation, then the insert).  A create operation that returns an
`AdapterErr` instead never produced such a request, so no store operation
was attempted and no cache was touched. -/
structure ApiCall where
  kind : String
  title : String
  parentId : String
  dueDate : Option String
  timeEstimate : Option Int
  priority : Option String
deriving DecidableEq

/-- Resolve a caller-supplied parent friendly ID the way the create
operations do: empty/absent means the given default sentinel, a `c` prefix
resolves in the category namespace, a `p` prefix in the project namespace,
anything else is invalid. -/
def resolveParent (reg : Reg) (parent_id : String) (dflt : String) :
    Except AdapterErr String :=
  if parent_id ≠ "" then
    if strHeadIs parent_id 'c' then get_real_category_id reg parent_id
    else if strHeadIs parent_id 'p' then get_real_project_id reg parent_id
    else .error (.adapterError ("Invalid parent ID: " ++ parent_id))
  else .ok dflt

/-- `MarvinAdapter.create_task`: validate the title, resolve the parent
(default `"unassigned"`), parse a truthy time estimate, validate a truthy
priority against `{1, 2, 3}`, and only then issue the store call. -/
def create_task (reg : Reg) (title parent_id : String)
    (due_date time_estimate priority : Option String) : Except AdapterErr ApiCall :=
  if title = "" then .error (.adapterError "Task title cannot be empty")
  else
    match resolveParent reg parent_id "unassigned" with
    | .error e => .error e
    | .ok real_parent =>
      match
        (match truthyStr time_estimate with
          | some s => parse_time_estimate s
          | none => .ok none) with
      | .error e => .error e
      | .ok time_ms =>
        match truthyStr priority with
        | some p =>
          if p ∉ (["1", "2", "3"] : List String) then
            .error (.adapterError ("Invalid priority value: " ++ p))
          else .ok ⟨"task", title, real_parent, due_date, time_ms, priority⟩
        | none => .ok ⟨"task", title, real_parent, due_date, time_ms, priority⟩

/-- `MarvinAdapter.create_project`: validate the title and resolve the parent
(default `"root"`), then issue the store call.  The source has no priority
validation here — the supplied priority is passed through. -/
def create_project (reg : Reg) (title parent_id : String)
    (due_date priority : Option String) : Except AdapterErr ApiCall :=
  if title = "" then .error (.adapterError "Project title cannot be empty")
  else
    match resolveParent reg parent_id "root" with
    | .error e => .error e
    | .ok real_parent => .ok ⟨"project", title, real_parent, due_date, none, priority⟩

/-- `MarvinAdapter.create_category`: validate the title, resolve the parent
(default `"root"`), validate a truthy priority against `{1, 2, 3}`, and only
then issue the store call. -/
def create_category (reg : Reg) (title parent_id : String)
    (due_date priority : Option String) : Except AdapterErr ApiCall :=
  if title = "" then .error (.adapterError "Category title cannot be empty")
  else
    match resolveParent reg parent_id "root" with
    | .error e => .error e
    | .ok real_parent =>
      match truthyStr priority with
      | some p =>
        if p ∉ (["1", "2", "3"] : List String) then
          .error (.adapterError ("Invalid priority value: " ++ p))
        else .ok ⟨"category", title, real_parent, due_date, none, priority⟩
      | none => .ok ⟨"category", title, real_parent, due_date, none, priority⟩

/-! ### Lemmas: change-gated cache -/

/-- A failing `_check_changes` fails with the probe's own error. -/
theorem check_changes_error {st : Store} {q : String} {e : String}
    (h : check_changes st q = .error e) : st.check q = .error e := by
  unfold check_changes at h
  cases hc : st.check q with
  | error e1 =>
    rw [hc] at h
    dsimp only at h
    cases h
    rfl
  | ok ch =>
    rw [hc] at h
    dsimp only at h
    split at h <;> [skip; simp at h]
    split at h <;> simp at h

theorem fetch_documents_error_cases {st : Store} {c : Option (List Doc)}
    {q : String} {e : String} (h : (fetch_documents st c q).1 = .error e) :
    st.check q = .error e ∨ st.find = .error e ∨ st.check "0" = .error e := by
  unfold fetch_documents at h
  cases hcc : check_changes st q with
  | error e1 =>
    rw [hcc] at h
    dsimp only at h
    cases h
    exact .inl (check_changes_error hcc)
  | ok nsq =>
    rw [hcc] at h
    dsimp only at h
    have hfind : ∀ (nsq' : Option String),
        ((match st.find with
          | Except.error e => (Except.error e, true)
          | Except.ok docs =>
            let docs := List.map stripFieldUpdates docs
            match nsq' with
            | none =>
              match check_changes st "0" with
              | Except.error e => (Except.error e, true)
              | Except.ok cur => (Except.ok (docs, pyOrStr cur q), true)
            | some s => (Except.ok (docs, s), true) :
              Except String (List Doc × String) × Bool)).1 = .error e →
        st.find = .error e ∨ st.check "0" = .error e := by
      intro nsq' h'
      cases hf : st.find with
      | error e1 =>
        rw [hf] at h'
        dsimp only at h'
        cases h'
        exact .inl rfl
      | ok docs =>
        rw [hf] at h'
        dsimp only at h'
        cases nsq' with
        | some s => simp at h'
        | none =>
          cases h0 : check_changes st "0" with
          | error e1 =>
            rw [h0] at h'
            dsimp only at h'
            cases h'
            exact .inr (check_changes_error h0)
          | ok cur => rw [h0] at h'; simp at h'
    cases nsq with
    | none =>
      cases c with
      | some cl => simp at h
      | none => exact .inr (hfind none h)
    | some s => exact .inr (hfind (some s) h)

theorem fetch_documents_no_cache_issues_find {st : Store} {q : String}
    {docs : List Doc} {seq : String}
    (h : (fetch_documents st none q).1 = .ok (docs, seq)) :
    (fetch_documents st none q).2 = true := by
  rcases hfd : fetch_documents st none q with ⟨res, issued⟩
  try rw [hfd] at h
  rcases res with e1 | ⟨docs1, seq1⟩
  · simp at h
  · dsimp only
    unfold fetch_documents at hfd
    cases hcc : check_changes st q with
    | error e1 => rw [hcc] at hfd; simp at hfd
    | ok nsq =>
      rw [hcc] at hfd
      dsimp only at hfd
      have hfind : ∀ (nsq' : Option String),
          ((match st.find with
            | Except.error e => (Except.error e, true)
            | Except.ok fdocs =>
              let fdocs := List.map stripFieldUpdates fdocs
              match nsq' with
              | none =>
                match check_changes st "0" with
                | Except.error e => (Except.error e, true)
                | Except.ok cur => (Except.ok (fdocs, pyOrStr cur q), true)
              | some s => (Except.ok (fdocs, s), true) :
                Except String (List Doc × String) × Bool)) =
            (.ok (docs1, seq1), issued) →
          issued = true := by
        intro nsq' h'
        cases hf : st.find with
        | error e2 => rw [hf] at h'; simp at h'
        | ok fdocs =>
          rw [hf] at h'
          dsimp only at h'
          cases nsq' with
          | some s2 => exact ((congrArg Prod.snd h').symm : issued = true)
          | none =>
            cases h0 : check_changes st "0" with
            | error e2 => rw [h0] at h'; simp at h'
            | ok cur =>
              rw [h0] at h'
              exact ((congrArg Prod.snd h').symm : issued = true)
      cases nsq with
      | none => exact hfind none hfd
      | some s => exact hfind (some s) hfd

/-- Claim C1 — change-gated cache hot path: when the change-feed probe at the
stored (non-initial) cursor reports no change events and a cached document
list is present, both `get_categories` and the unfiltered `get_tasks` return
the cached list unchanged, leave the cache and the stored cursor unchanged,
and issue no find query. -/
theorem cache_hot_path (st : Store) (s : CacheState) (ch : FeedResponse)
    (docs : List Doc) (hch : st.check s.lastSeq = .ok ch)
    (hempty : ch.resultsNonempty = false) (hcur : s.lastSeq ≠ "0")
    (hcache : s.cache = some docs) :
    get_categories st s = (.ok docs, ⟨some docs, s.lastSeq⟩, false) ∧
    get_tasks_all st s = (.ok docs, ⟨some docs, s.lastSeq⟩, false) := by
  have hcc : check_changes st s.lastSeq = .ok none := by
    simp [check_changes, hch, hempty, hcur]
  constructor <;>
    simp [get_categories, get_tasks_all, fetch_documents, hcc, hcache]

/-- Witness for C1: a concrete quiet store and warm cache. -/
theorem cache_hot_path_witness :
    get_categories ⟨fun _ => .ok ⟨false, "7"⟩, .ok []⟩ ⟨some [{ id := "a" }], "3"⟩ =
      (.ok [{ id := "a" }], ⟨some [{ id := "a" }], "3"⟩, false) ∧
    get_tasks_all ⟨fun _ => .ok ⟨false, "7"⟩, .ok []⟩ ⟨some [{ id := "a" }], "3"⟩ =
      (.ok [{ id := "a" }], ⟨some [{ id := "a" }], "3"⟩, false) :=
  cache_hot_path _ _ ⟨false, "7"⟩ [{ id := "a" }] rfl rfl (by decide) rfl

/-- Claim C6 — cache failure atomicity: any failure during a cached
collection read drops the cached list, resets the stored cursor to the
initial sentinel `"0"`, and re-raises the originating store failure (the
first probe's, the find query's, or the baseline re-probe's); and from a
cache-less state (which is what the reset produces) no successful call can
complete without issuing a find query, so a stale pre-failure cache is never
served after an error. -/
theorem cache_failure_atomicity (st : Store) (s : CacheState) (e : String) :
    ((get_categories st s).1 = .error e →
      (get_categories st s).2.1 = ⟨none, "0"⟩ ∧
      (st.check s.lastSeq = .error e ∨ st.find = .error e ∨ st.check "0" = .error e)) ∧
    ((get_tasks_all st s).1 = .error e →
      (get_tasks_all st s).2.1 = ⟨none, "0"⟩ ∧
      (st.check s.lastSeq = .error e ∨ st.find = .error e ∨ st.check "0" = .error e)) ∧
    (∀ docs, (get_categories st ⟨none, s.lastSeq⟩).1 = .ok docs →
      (get_categories st ⟨none, s.lastSeq⟩).2.2 = true) ∧
    (∀ docs, (get_tasks_all st ⟨none, s.lastSeq⟩).1 = .ok docs →
      (get_tasks_all st ⟨none, s.lastSeq⟩).2.2 = true) := by
  refine ⟨?_, ?_, ?_, ?_⟩
  · intro h
    unfold get_categories at h ⊢
    rcases hf : fetch_documents st s.cache s.lastSeq with ⟨res, issued⟩
    rw [hf] at h
    rcases res with e1 | ⟨docs, seq⟩
    · dsimp only at h ⊢
      cases h
      refine ⟨rfl, fetch_documents_error_cases (c := s.cache) (e := e) ?_⟩
      rw [hf]
    · simp at h
  · intro h
    unfold get_tasks_all at h ⊢
    rcases hf : fetch_documents st s.cache s.lastSeq with ⟨res, issued⟩
    rw [hf] at h
    rcases res with e1 | ⟨docs, seq⟩
    · dsimp only at h ⊢
      cases h
      refine ⟨rfl, fetch_documents_error_cases (c := s.cache) (e := e) ?_⟩
      rw [hf]
    · simp at h
  · intro docs h
    unfold get_categories at h ⊢
    rcases hf : fetch_documents st none s.lastSeq with ⟨res, issued⟩
    rw [hf] at h
    rcases res with e1 | ⟨fdocs, seq⟩
    · simp at h
    · dsimp only
      have hok : (fetch_documents st none s.lastSeq).1 = .ok (fdocs, seq) := by rw [hf]
      have h2 := fetch_documents_no_cache_issues_find hok
      rw [hf] at h2
      exact h2
  · intro docs h
    unfold get_tasks_all at h ⊢
    rcases hf : fetch_documents st none s.lastSeq with ⟨res, issued⟩
    rw [hf] at h
    rcases res with e1 | ⟨fdocs, seq⟩
    · simp at h
    · dsimp only
      have hok : (fetch_documents st none s.lastSeq).1 = .ok (fdocs, seq) := by rw [hf]
      have h2 := fetch_documents_no_cache_issues_find hok
      rw [hf] at h2
      exact h2

/-- Witness for C6: a store whose probe fails; the read fails, resets the
cache state, and the reported error is the probe's. -/
theorem cache_failure_atomicity_witness :
    (get_categories ⟨fun _ => .error "boom", .error "boom"⟩
        ⟨some [{ id := "a" }], "3"⟩).2.1 = ⟨none, "0"⟩ ∧
    ((⟨fun _ => .error "boom", .error "boom"⟩ : Store).check "3" = .error "boom" ∨
      (⟨fun _ => .error "boom", .error "boom"⟩ : Store).find = .error "boom" ∨
      (⟨fun _ => .error "boom", .error "boom"⟩ : Store).check "0" = .error "boom") :=
  (cache_failure_atomicity ⟨fun _ => .error "boom", .error "boom"⟩
    ⟨some [{ id := "a" }], "3"⟩ "boom").1 rfl

/-! ### Lemmas: decimal rendering and association lists -/

theorem digitsVal_append_singleton (l : List Char) (c : Char) :
    digitsVal (l ++ [c]) = digitsVal l * 10 + (c.toNat - 48) := by
  simp [digitsVal]

theorem digitChar_val : ∀ d < 10, (Nat.digitChar d).toNat - 48 = d := by decide

/-- `natStrAux` is a faithful decimal rendering: reading the digits back
gives the number, provided the fuel covers the digit count. -/
theorem natStrAux_val : ∀ (fuel n : Nat), n < 10 ^ fuel →
    digitsVal (natStrAux fuel n) = n := by
  intro fuel
  induction fuel with
  | zero =>
    intro n hn
    interval_cases n
    simp [natStrAux, digitsVal]
  | succ fuel ih =>
    intro n hn
    by_cases h10 : n < 10
    · simp [natStrAux, h10, digitsVal, digitChar_val n h10]
    · have hdiv : n / 10 < 10 ^ fuel := by
        apply Nat.div_lt_of_lt_mul
        rw [pow_succ] at hn
        omega
      have hmod : n % 10 < 10 := Nat.mod_lt _ (by omega)
      simp only [natStrAux, h10, if_false]
      rw [digitsVal_append_singleton, ih _ hdiv, digitChar_val _ hmod]
      omega

theorem natStr_val (n : Nat) : digitsVal (natStr n).data = n := by
  have h1 : n < 10 ^ n := Nat.lt_pow_self (by norm_num) n
  have h2 : (10 : Nat) ^ n ≤ 10 ^ (n + 1) :=
    Nat.pow_le_pow_right (by norm_num) (by omega)
  exact natStrAux_val (n + 1) n (by omega)

/-- Data of a one-character-prefixed token. -/
theorem token_data (p : String) (n : Nat) :
    (p ++ natStr n).data = p.data ++ (natStr n).data :=
  String.data_append p (natStr n)

/-- The numeric part of a token `pfx ++ natStr n` reads back as `n`. -/
theorem tokVal_token (c : Char) (n : Nat) :
    digitsVal ((String.mk [c] ++ natStr n).data.drop 1) = n := by
  rw [String.data_append]
  simpa using natStr_val n

theorem lookupA_append {β : Type} (m1 m2 : List (String × β)) (k : String) :
    lookupA (m1 ++ m2) k =
      match lookupA m1 k with
      | some v => some v
      | none => lookupA m2 k := by
  induction m1 with
  | nil => simp [lookupA]
  | cons p r ih =>
    by_cases hp : p.1 = k <;> simp [lookupA, hp, ih]

theorem lookupA_of_not_mem {β : Type} {m : List (String × β)} {k : String}
    (h : m.any (fun p => p.1 = k) = false) : lookupA m k = none := by
  induction m with
  | nil => rfl
  | cons p r ih =>
    simp only [List.any_cons, Bool.or_eq_false_iff] at h
    have hp : ¬p.1 = k := by simpa using h.1
    simp [lookupA, hp, ih h.2]

theorem lookupA_map_overwrite {β : Type} {m : List (String × β)} {k a : String}
    {v : β} (hne : a ≠ k) :
    lookupA (m.map fun p => if p.1 = k then (k, v) else p) a = lookupA m a := by
  induction m with
  | nil => rfl
  | cons p r ih =>
    by_cases hp : p.1 = k
    · simp [lookupA, hp, Ne.symm hne, ih]
    · by_cases ha : p.1 = a <;> simp [lookupA, hp, ha, hne, ih]

theorem lookupA_map_overwrite_hit {β : Type} {m : List (String × β)} {k : String}
    {v : β} (h : m.any (fun p => p.1 = k) = true) :
    lookupA (m.map fun p => if p.1 = k then (k, v) else p) k = some v := by
  induction m with
  | nil => simp at h
  | cons p r ih =>
    by_cases hp : p.1 = k
    · simp [lookupA, hp]
    · simp only [List.any_cons, Bool.or_eq_true] at h
      rcases h with h | h
    
      · exact absurd (by simpa using h) hp
      · simp [lookupA, hp, ih h]

/-- Lookup after a Python-dict insert: the inserted key maps to the new
value, every other key is unaffected. -/
theorem lookupA_dictInsert {β : Type} (m : List (String × β)) (k a : String) (v : β) :
    lookupA (dictInsert m k v) a = if a = k then some v else lookupA m a := by
  unfold dictInsert
  by_cases hmem : m.any (fun p => p.1 = k) = true
  · rw [if_pos hmem]
    by_cases ha : a = k
    · subst ha
      simp [lookupA_map_overwrite_hit hmem]
    · simp [ha, lookupA_map_overwrite ha]
  · rw [if_neg hmem]
    have hmem' : m.any (fun p => p.1 = k) = false := by
      revert hmem; cases m.any (fun p => p.1 = k) <;> simp
    rw [lookupA_append]
    by_cases ha : a = k
    · subst ha
      rw [lookupA_of_not_mem hmem']
      simp [lookupA]
    · cases h1 : lookupA m a <;> simp [lookupA, Ne.symm ha, ha]

/-! ### Lemmas: friendly-ID registry invariant -/

theorem token_head (c : Char) (n : Nat) :
    ((String.mk [c]) ++ natStr n).data.head? = some c := by
  rw [String.data_append]
  rfl

theorem token_drop (c : Char) (n : Nat) :
    digitsVal (((String.mk [c]) ++ natStr n).data.drop 1) = n := by
  rw [String.data_append]
  simpa using natStr_val n

theorem token_ne_empty {c : Char} {n : Nat} : (String.mk [c]) ++ natStr n ≠ "" := by
  intro h
  have := congrArg String.data h
  rw [String.data_append] at this
  simp at this

/-- The invariant of one friendly-ID namespace: every forward binding is
inverted by the reverse map, and every allocated token consists of the
namespace prefix followed by a number below the next free counter. -/
structure MapInv (fwd rev : List (String × String)) (c : Char) (next : Nat) : Prop where
  rt : ∀ u t, lookupA fwd u = some t → lookupA rev t = some u
  tok : ∀ u t, lookupA fwd u = some t →
    t.data.head? = some c ∧ digitsVal (t.data.drop 1) < next

/-- The registry invariant: all three namespaces are well-formed. -/
def RegInv (reg : Reg) : Prop :=
  MapInv reg.projMap reg.projRev 'p' reg.nextProj ∧
  MapInv reg.catMap reg.catRev 'c' reg.nextCat ∧
  MapInv reg.taskMap reg.taskRev 't' reg.nextTask

theorem mapInv_nil (c : Char) (next : Nat) : MapInv [] [] c next := by
  constructor <;> intro u t h <;> simp [lookupA] at h

/-- The freshly constructed registry (only the `"unassigned" ↔ "p0"` binding)
satisfies the invariant. -/
theorem regInv_fresh : RegInv freshReg := by
  refine ⟨⟨?_, ?_⟩, mapInv_nil _ _, mapInv_nil _ _⟩ <;>
  · intro u t h
    simp only [freshReg, lookupA] at h ⊢
    split at h
    · rename_i hu
      cases h
      subst hu
      first
      | exact ⟨rfl, by decide⟩
      | simp [lookupA]
    · simp at h

/-- Full characterization of `_get_friendly_task_id` on a non-empty
persistent ID under the namespace invariant: the invariant is preserved, the
call is idempotent, the reverse lookup recovers the persistent ID, and no
other namespace is touched. -/
theorem friendly_task_spec (reg : Reg) (x : String)
    (inv : MapInv reg.taskMap reg.taskRev 't' reg.nextTask) (hx : x ≠ "") :
    MapInv (get_friendly_task_id reg x).1.taskMap
      (get_friendly_task_id reg x).1.taskRev 't'
      (get_friendly_task_id reg x).1.nextTask ∧
    get_friendly_task_id (get_friendly_task_id reg x).1 x =
      ((get_friendly_task_id reg x).1, (get_friendly_task_id reg x).2) ∧
    get_real_task_id (get_friendly_task_id reg x).1 (get_friendly_task_id reg x).2 =
      .ok x ∧
    (get_friendly_task_id reg x).1.projMap = reg.projMap ∧
    (get_friendly_task_id reg x).1.projRev = reg.projRev ∧
    (get_friendly_task_id reg x).1.nextProj = reg.nextProj ∧
    (get_friendly_task_id reg x).1.catMap = reg.catMap ∧
    (get_friendly_task_id reg x).1.catRev = reg.catRev ∧
    (get_friendly_task_id reg x).1.nextCat = reg.nextCat := by
  cases hl : lookupA reg.taskMap x with
  | some fid =>
    have heq : get_friendly_task_id reg x = (reg, fid) := by
      simp [get_friendly_task_id, hx, hl]
    rw [heq]
    obtain ⟨hhead, hval⟩ := inv.tok x fid hl
    have hrev := inv.rt x fid hl
    have hfid : fid ≠ "" := by
      intro h
      rw [h] at hhead
      simp at hhead
    refine ⟨inv, heq, ?_, rfl, rfl, rfl, rfl, rfl, rfl⟩
    have hsh : strHeadIs fid 't' = true := by simp [strHeadIs, hhead]
    simp [get_real_task_id, hfid, hsh, hrev]
  | none =>
    have heq : get_friendly_task_id reg x =
        ({ reg with
            taskMap := dictInsert reg.taskMap x ("t" ++ natStr reg.nextTask)
            taskRev := dictInsert reg.taskRev ("t" ++ natStr reg.nextTask) x
            nextTask := reg.nextTask + 1 }, "t" ++ natStr reg.nextTask) := by
      simp [get_friendly_task_id, hx, hl]
    rw [heq]
    dsimp only
    have htc : ("t" : String) = String.mk ['t'] := rfl
    constructor
    · constructor
      · intro u t' h
        rw [lookupA_dictInsert] at h
        rw [lookupA_dictInsert]
        split at h
        · rename_i hu
          cases h
          simp [hu]
        · rename_i hu
          have hold := inv.rt u t' h
          have htok := inv.tok u t' h
          have hne : t' ≠ "t" ++ natStr reg.nextTask := by
            intro hcontra
            have := htok.2
            rw [hcontra, htc, token_drop] at this
            omega
          rw [if_neg hne]
          exact hold
      · intro u t' h
        rw [lookupA_dictInsert] at h
        split at h
        · cases h
          refine ⟨by rw [htc]; exact token_head 't' reg.nextTask, ?_⟩
          rw [htc, token_drop]
          omega
        · have := inv.tok u t' h
          exact ⟨this.1, by omega⟩
    constructor
    · simp [get_friendly_task_id, hx, lookupA_dictInsert]
    constructor
    · have hfid : ("t" ++ natStr reg.nextTask : String) ≠ "" := by
        rw [htc]; exact token_ne_empty
      have hsh : strHeadIs ("t" ++ natStr reg.nextTask) 't' = true := by
        unfold strHeadIs
        rw [htc, token_head]
        rfl
      simp [get_real_task_id, hfid, hsh, lookupA_dictInsert]
    exact ⟨rfl, rfl, rfl, rfl, rfl, rfl⟩

/-- Full characterization of `_get_friendly_project_id` on a non-empty
persistent ID under the namespace invariant: the invariant is preserved, the
call is idempotent, the reverse lookup recovers the persistent ID, and no
other namespace is touched. -/
theorem friendly_project_spec (reg : Reg) (x : String)
    (inv : MapInv reg.projMap reg.projRev 'p' reg.nextProj) (hx : x ≠ "") :
    MapInv (get_friendly_project_id reg x).1.projMap
      (get_friendly_project_id reg x).1.projRev 'p'
      (get_friendly_project_id reg x).1.nextProj ∧
    get_friendly_project_id (get_friendly_project_id reg x).1 x =
      ((get_friendly_project_id reg x).1, (get_friendly_project_id reg x).2) ∧
    get_real_project_id (get_friendly_project_id reg x).1 (get_friendly_project_id reg x).2 =
      .ok x ∧
    (get_friendly_project_id reg x).1.taskMap = reg.taskMap ∧
    (get_friendly_project_id reg x).1.taskRev = reg.taskRev ∧
    (get_friendly_project_id reg x).1.nextTask = reg.nextTask ∧
    (get_friendly_project_id reg x).1.catMap = reg.catMap ∧
    (get_friendly_project_id reg x).1.catRev = reg.catRev ∧
    (get_friendly_project_id reg x).1.nextCat = reg.nextCat := by
  cases hl : lookupA reg.projMap x with
  | some fid =>
    have heq : get_friendly_project_id reg x = (reg, fid) := by
      simp [get_friendly_project_id, hx, hl]
    rw [heq]
    obtain ⟨hhead, hval⟩ := inv.tok x fid hl
    have hrev := inv.rt x fid hl
    have hfid : fid ≠ "" := by
      intro h
      rw [h] at hhead
      simp at hhead
    refine ⟨inv, heq, ?_, rfl, rfl, rfl, rfl, rfl, rfl⟩
    simp [get_real_project_id, hfid, hrev]
  | none =>
    have heq : get_friendly_project_id reg x =
        ({ reg with
            projMap := dictInsert reg.projMap x ("p" ++ natStr reg.nextProj)
            projRev := dictInsert reg.projRev ("p" ++ natStr reg.nextProj) x
            nextProj := reg.nextProj + 1 }, "p" ++ natStr reg.nextProj) := by
      simp [get_friendly_project_id, hx, hl]
    rw [heq]
    dsimp only
    have htc : ("p" : String) = String.mk ['p'] := rfl
    constructor
    · constructor
      · intro u t' h
        rw [lookupA_dictInsert] at h
        rw [lookupA_dictInsert]
        split at h
        · rename_i hu
          cases h
          simp [hu]
        · rename_i hu
          have hold := inv.rt u t' h
          have htok := inv.tok u t' h
          have hne : t' ≠ "p" ++ natStr reg.nextProj := by
            intro hcontra
            have := htok.2
            rw [hcontra, htc, token_drop] at this
            omega
          rw [if_neg hne]
          exact hold
      · intro u t' h
        rw [lookupA_dictInsert] at h
        split at h
        · cases h
          refine ⟨by rw [htc]; exact token_head 'p' reg.nextProj, ?_⟩
          rw [htc, token_drop]
          omega
        · have := inv.tok u t' h
          exact ⟨this.1, by omega⟩
    constructor
    · simp [get_friendly_project_id, hx, lookupA_dictInsert]
    constructor
    · have hfid : ("p" ++ natStr reg.nextProj : String) ≠ "" := by
        rw [htc]; exact token_ne_empty
      simp [get_real_project_id, hfid, lookupA_dictInsert]
    exact ⟨rfl, rfl, rfl, rfl, rfl, rfl⟩

/-- Full characterization of `_get_friendly_category_id` on a non-empty
persistent ID under the namespace invariant: the invariant is preserved, the
call is idempotent, the reverse lookup recovers the persistent ID, and no
other namespace is touched. -/
theorem friendly_category_spec (reg : Reg) (x : String)
    (inv : MapInv reg.catMap reg.catRev 'c' reg.nextCat) (hx : x ≠ "") :
    MapInv (get_friendly_category_id reg x).1.catMap
      (get_friendly_category_id reg x).1.catRev 'c'
      (get_friendly_category_id reg x).1.nextCat ∧
    get_friendly_category_id (get_friendly_category_id reg x).1 x =
      ((get_friendly_category_id reg x).1, (get_friendly_category_id reg x).2) ∧
    get_real_category_id (get_friendly_category_id reg x).1 (get_friendly_category_id reg x).2 =
      .ok x ∧
    (get_friendly_category_id reg x).1.projMap = reg.projMap ∧
    (get_friendly_category_id reg x).1.projRev = reg.projRev ∧
    (get_friendly_category_id reg x).1.nextProj = reg.nextProj ∧
    (get_friendly_category_id reg x).1.taskMap = reg.taskMap ∧
    (get_friendly_category_id reg x).1.taskRev = reg.taskRev ∧
    (get_friendly_category_id reg x).1.nextTask = reg.nextTask := by
  cases hl : lookupA reg.catMap x with
  | some fid =>
    have heq : get_friendly_category_id reg x = (reg, fid) := by
      simp [get_friendly_category_id, hx, hl]
    rw [heq]
    obtain ⟨hhead, hval⟩ := inv.tok x fid hl
    have hrev := inv.rt x fid hl
    have hfid : fid ≠ "" := by
      intro h
      rw [h] at hhead
      simp at hhead
    refine ⟨inv, heq, ?_, rfl, rfl, rfl, rfl, rfl, rfl⟩
    have hsh : strHeadIs fid 'c' = true := by simp [strHeadIs, hhead]
    simp [get_real_category_id, hfid, hsh, hrev]
  | none =>
    have heq : get_friendly_category_id reg x =
        ({ reg with
            catMap := dictInsert reg.catMap x ("c" ++ natStr reg.nextCat)
            catRev := dictInsert reg.catRev ("c" ++ natStr reg.nextCat) x
            nextCat := reg.nextCat + 1 }, "c" ++ natStr reg.nextCat) := by
      simp [get_friendly_category_id, hx, hl]
    rw [heq]
    dsimp only
    have htc : ("c" : String) = String.mk ['c'] := rfl
    constructor
    · constructor
      · intro u t' h
        rw [lookupA_dictInsert] at h
        rw [lookupA_dictInsert]
        split at h
        · rename_i hu
          cases h
          simp [hu]
        · rename_i hu
          have hold := inv.rt u t' h
          have htok := inv.tok u t' h
          have hne : t' ≠ "c" ++ natStr reg.nextCat := by
            intro hcontra
            have := htok.2
            rw [hcontra, htc, token_drop] at this
            omega
          rw [if_neg hne]
          exact hold
      · intro u t' h
        rw [lookupA_dictInsert] at h
        split at h
        · cases h
          refine ⟨by rw [htc]; exact token_head 'c' reg.nextCat, ?_⟩
          rw [htc, token_drop]
          omega
        · have := inv.tok u t' h
          exact ⟨this.1, by omega⟩
    constructor
    · simp [get_friendly_category_id, hx, lookupA_dictInsert]
    constructor
    · have hfid : ("c" ++ natStr reg.nextCat : String) ≠ "" := by
        rw [htc]; exact token_ne_empty
      have hsh : strHeadIs ("c" ++ natStr reg.nextCat) 'c' = true := by
        unfold strHeadIs
        rw [htc, token_head]
        rfl
      simp [get_real_category_id, hfid, hsh, lookupA_dictInsert]
    exact ⟨rfl, rfl, rfl, rfl, rfl, rfl⟩

/-- Claim C3 — friendly-ID idempotence and round-trip: under the registry
invariant (which holds for the fresh registry and is preserved by every
resolution), for every non-empty persistent ID `x` and every namespace,
resolving a token twice without an intervening reset returns the same token
both times, and the namespace's reverse lookup on the returned token yields
exactly `x`; the registry invariant holds again afterwards, so the property
extends to every token the registry ever returned. -/
theorem friendly_id_idempotent_roundtrip (reg : Reg) (x : String)
    (hinv : RegInv reg) (hx : x ≠ "") :
    (get_friendly_project_id (get_friendly_project_id reg x).1 x =
      ((get_friendly_project_id reg x).1, (get_friendly_project_id reg x).2) ∧
     get_real_project_id (get_friendly_project_id reg x).1
       (get_friendly_project_id reg x).2 = .ok x ∧
     RegInv (get_friendly_project_id reg x).1) ∧
    (get_friendly_task_id (get_friendly_task_id reg x).1 x =
      ((get_friendly_task_id reg x).1, (get_friendly_task_id reg x).2) ∧
     get_real_task_id (get_friendly_task_id reg x).1
       (get_friendly_task_id reg x).2 = .ok x ∧
     RegInv (get_friendly_task_id reg x).1) ∧
    (get_friendly_category_id (get_friendly_category_id reg x).1 x =
      ((get_friendly_category_id reg x).1, (get_friendly_category_id reg x).2) ∧
     get_real_category_id (get_friendly_category_id reg x).1
       (get_friendly_category_id reg x).2 = .ok x ∧
     RegInv (get_friendly_category_id reg x).1) := by
  obtain ⟨invP, invC, invT⟩ := hinv
  obtain ⟨pInv, pIdem, pRt, ptM, ptR, ptN, pcM, pcR, pcN⟩ :=
    friendly_project_spec reg x invP hx
  obtain ⟨tInv, tIdem, tRt, tpM, tpR, tpN, tcM, tcR, tcN⟩ :=
    friendly_task_spec reg x invT hx
  obtain ⟨cInv, cIdem, cRt, cpM, cpR, cpN, ctM, ctR, ctN⟩ :=
    friendly_category_spec reg x invC hx
  refine ⟨⟨pIdem, pRt, pInv, ?_, ?_⟩, ⟨tIdem, tRt, ?_, ?_, tInv⟩,
    ⟨cIdem, cRt, ?_, cInv, ?_⟩⟩
  · rw [pcM, pcR, pcN]; exact invC
  · rw [ptM, ptR, ptN]; exact invT
  · rw [tpM, tpR, tpN]; exact invP
  · rw [tcM, tcR, tcN]; exact invC
  · rw [cpM, cpR, cpN]; exact invP
  · rw [ctM, ctR, ctN]; exact invT

/-- Witness for C3: the fresh registry and the persistent ID `"abc"`. -/
theorem friendly_id_idempotent_roundtrip_witness :
    (get_friendly_project_id (get_friendly_project_id freshReg "abc").1 "abc" =
      ((get_friendly_project_id freshReg "abc").1,
        (get_friendly_project_id freshReg "abc").2) ∧
     get_real_project_id (get_friendly_project_id freshReg "abc").1
       (get_friendly_project_id freshReg "abc").2 = .ok "abc" ∧
     RegInv (get_friendly_project_id freshReg "abc").1) ∧
    (get_friendly_task_id (get_friendly_task_id freshReg "abc").1 "abc" =
      ((get_friendly_task_id freshReg "abc").1,
        (get_friendly_task_id freshReg "abc").2) ∧
     get_real_task_id (get_friendly_task_id freshReg "abc").1
       (get_friendly_task_id freshReg "abc").2 = .ok "abc" ∧
     RegInv (get_friendly_task_id freshReg "abc").1) ∧
    (get_friendly_category_id (get_friendly_category_id freshReg "abc").1 "abc" =
      ((get_friendly_category_id freshReg "abc").1,
        (get_friendly_category_id freshReg "abc").2) ∧
     get_real_category_id (get_friendly_category_id freshReg "abc").1
       (get_friendly_category_id freshReg "abc").2 = .ok "abc" ∧
     RegInv (get_friendly_category_id freshReg "abc").1) :=
  friendly_id_idempotent_roundtrip freshReg "abc" regInv_fresh (by decide)

/-- Claim C2 — deterministic bulk initialization: the bulk pass is a pure
function of the two fetched document lists (it groups containers, stably
sorts each group and the work-units by ascending `createdAt` with missing
values as 0, and resolves tokens in that fixed order), so two registries
that are both freshly constructed end up with identical states and assign
identical tokens to every persistent ID in all three namespaces. -/
theorem init_id_maps_deterministic (categories tasks : List Doc) (r1 r2 : Reg)
    (h1 : r1 = freshReg) (h2 : r2 = freshReg) :
    init_id_maps r1 categories tasks = init_id_maps r2 categories tasks ∧
    ∀ u : String,
      lookupA (init_id_maps r1 categories tasks).catMap u =
        lookupA (init_id_maps r2 categories tasks).catMap u ∧
      lookupA (init_id_maps r1 categories tasks).projMap u =
        lookupA (init_id_maps r2 categories tasks).projMap u ∧
      lookupA (init_id_maps r1 categories tasks).taskMap u =
        lookupA (init_id_maps r2 categories tasks).taskMap u := by
  subst h1
  subst h2
  exact ⟨rfl, fun u => ⟨rfl, rfl, rfl⟩⟩

/-- Witness for C2: two equal-`createdAt` categories (a sorting tie) and one
work-unit without `createdAt`. -/
theorem init_id_maps_deterministic_witness :
    init_id_maps freshReg
        [{ id := "b", type := some "category", createdAt := some 5 },
          { id := "a", type := some "category", createdAt := some 5 }]
        [{ id := "w" }] =
      init_id_maps freshReg
        [{ id := "b", type := some "category", createdAt := some 5 },
          { id := "a", type := some "category", createdAt := some 5 }]
        [{ id := "w" }] ∧
    ∀ u : String,
      lookupA (init_id_maps freshReg
        [{ id := "b", type := some "category", createdAt := some 5 },
          { id := "a", type := some "category", createdAt := some 5 }]
        [{ id := "w" }]).catMap u =
      lookupA (init_id_maps freshReg
        [{ id := "b", type := some "category", createdAt := some 5 },
          { id := "a", type := some "category", createdAt := some 5 }]
        [{ id := "w" }]).catMap u ∧
      lookupA (init_id_maps freshReg
        [{ id := "b", type := some "category", createdAt := some 5 },
          { id := "a", type := some "category", createdAt := some 5 }]
        [{ id := "w" }]).projMap u =
      lookupA (init_id_maps freshReg
        [{ id := "b", type := some "category", createdAt := some 5 },
          { id := "a", type := some "category", createdAt := some 5 }]
        [{ id := "w" }]).projMap u ∧
      lookupA (init_id_maps freshReg
        [{ id := "b", type := some "category", createdAt := some 5 },
          { id := "a", type := some "category", createdAt := some 5 }]
        [{ id := "w" }]).taskMap u =
      lookupA (init_id_maps freshReg
        [{ id := "b", type := some "category", createdAt := some 5 },
          { id := "a", type := some "category", createdAt := some 5 }]
        [{ id := "w" }]).taskMap u :=
  init_id_maps_deterministic _ _ freshReg freshReg rfl rfl

/-! ### Lemmas: time-estimate parsing -/

theorem sumParts_foldl_none (parts : List String) :
    parts.foldl
      (fun acc p =>
        match acc, parse_single_time_part p with
        | some t, some m => some (decAdd t m)
        | _, _ => none)
      none = none := by
  induction parts with
  | nil => rfl
  | cons q r ih =>
    simp only [List.foldl_cons]
    cases parse_single_time_part q <;> exact ih

theorem sumParts_none {parts : List String}
    (h : ∃ p ∈ parts, parse_single_time_part p = none) : sumParts parts = none := by
  unfold sumParts
  generalize (some (⟨0, 0⟩ : DecNum)) = acc
  induction parts generalizing acc with
  | nil => simp at h
  | cons q r ih =>
    simp only [List.foldl_cons]
    rcases h with ⟨p, hp, hfail⟩
    rcases List.mem_cons.mp hp with rfl | hp'
    · rw [show (match acc, parse_single_time_part p with
          | some t, some m => some (decAdd t m)
          | _, _ => none) = none by
            rw [hfail]; cases acc <;> rfl]
      exact sumParts_foldl_none r
    · exact ih ⟨p, hp', hfail⟩ _

/-- Claim C8 — time-estimate parsing: `"1h 30m"` parses to 5,400,000
milliseconds, `"bogus"` raises `InvalidTimeEstimateError`, and in general
every non-empty input one of whose parts fails to parse (unrecognized unit
suffix or non-numeric magnitude) raises `InvalidTimeEstimateError`. -/
theorem parse_time_estimate_spec :
    parse_time_estimate "1h 30m" = .ok (some 5400000) ∧
    parse_time_estimate "bogus" = .error (.invalidTimeEstimate "bogus") ∧
    ∀ s : String, s ≠ "" →
      (if s.data.contains ' ' then
        ∃ p ∈ pySplitSpace s, parse_single_time_part p = none
       else parse_single_time_part s = none) →
      parse_time_estimate s = .error (.invalidTimeEstimate s) := by
  refine ⟨rfl, rfl, ?_⟩
  intro s hs hcond
  unfold parse_time_estimate
  rw [if_neg hs]
  by_cases hc : s.data.contains ' ' = true
  · simp only [hc, if_true] at hcond
    rw [if_pos hc, sumParts_none hcond]
  · simp only [hc, if_false, Bool.false_eq_true] at hcond
    rw [if_neg hc, hcond]

/-- Witness for C8: the failing input `"bogus"`. -/
theorem parse_time_estimate_spec_witness :
    parse_time_estimate "bogus" = .error (.invalidTimeEstimate "bogus") :=
  parse_time_estimate_spec.2.2 "bogus" (by decide) (by decide)

/-- Claim C4 — end-to-end hierarchy scenario: one root container `"cat-1"`
titled `"Work"` (no `type` field, hence a project) and one child work-unit
`"task-1"` titled `"Write report"` with a 5,400,000 ms estimate yield, on a
freshly bulk-initialized registry, exactly
`{"Work": {"id": "p1", "tasks": [{"t": "Write report", "id": "t1",
"est": "1.5h"}]}}` (for every sufficient recursion fuel). -/
theorem build_hierarchy_scenario (fuel : Nat) :
    (build_hierarchy (fuel + 1)
      [{ id := "cat-1", parentId := some "root", title := some "Work" }]
      [{ id := "task-1", parentId := some "cat-1", title := some "Write report",
          timeEstimate := some 5400000 }]
      (init_id_maps freshReg
        [{ id := "cat-1", parentId := some "root", title := some "Work" }]
        [{ id := "task-1", parentId := some "cat-1", title := some "Write report",
            timeEstimate := some 5400000 }])).2 =
    [("Work", .mk "p1" none none
        (some [⟨"Write report", "t1", none, some "1.5h", none⟩]) none)] := rfl

/-- Claim C5 — zero and absent time estimates: a work-unit whose
`timeEstimate` is absent or 0 gets no `est` field at all in its task
summary (the adapter's truthiness guard never even calls the formatter on
0), and the `src/marvin.py` formatter `_convert_time_estimate` maps both 0
and `None` to `None`; the summary therefore never carries `"0m"`. -/
theorem time_estimate_zero_absent (reg : Reg) (task : Doc)
    (h : task.timeEstimate = none ∨ task.timeEstimate = some 0) :
    (process_task reg task).2.est = none ∧
    convert_time_estimate task.timeEstimate = none ∧
    format_time_estimate none = none := by
  rcases h with h | h <;>
    simp [process_task, truthyNat, convert_time_estimate, format_time_estimate, h]

/-- Witness for C5: a concrete work-unit with `timeEstimate = 0`. -/
theorem time_estimate_zero_absent_witness :
    (process_task freshReg { id := "z", timeEstimate := some 0 }).2.est = none ∧
    convert_time_estimate (some 0) = none ∧
    format_time_estimate none = none :=
  time_estimate_zero_absent freshReg { id := "z", timeEstimate := some 0 } (.inr rfl)

/-- Counterexample to C9 as stated: `create_project` does not validate the
priority.  With the out-of-range priority `"9"` it raises no invalid-input
error; it issues the store call (which itself begins with a fetch for rank
computation), passing the bad priority through. -/
theorem create_project_skips_priority_validation :
    create_project freshReg "New project" "" none (some "9") =
      .ok ⟨"project", "New project", "root", none, none, some "9"⟩ ∧
    "9" ∉ (["1", "2", "3"] : List String) :=
  ⟨rfl, by decide⟩

/-- Claim C9 (amended) — validation precedes store interaction where the
source validates: `create_task`, `create_project` and `create_category` all
reject an empty title before any store call; `create_task` rejects an
unparseable time estimate and (like `create_category`) a priority outside
`{1, 2, 3}` before any store call.  (`create_project` performs no priority
validation — see the counterexample.)  An error return means no `ApiCall`
was produced, so the store and the caches are untouched. -/
theorem create_validation (reg : Reg) (title parent_id : String)
    (due_date time_estimate priority : Option String) :
    (title = "" →
      create_task reg title parent_id due_date time_estimate priority =
        .error (.adapterError "Task title cannot be empty") ∧
      create_project reg title parent_id due_date priority =
        .error (.adapterError "Project title cannot be empty") ∧
      create_category reg title parent_id due_date priority =
        .error (.adapterError "Category title cannot be empty")) ∧
    (∀ s e, truthyStr time_estimate = some s → parse_time_estimate s = .error e →
      ∃ e', create_task reg title parent_id due_date time_estimate priority =
        .error e') ∧
    (∀ p, truthyStr priority = some p → p ∉ (["1", "2", "3"] : List String) →
      (∃ e', create_task reg title parent_id due_date time_estimate priority =
        .error e') ∧
      (∃ e', create_category reg title parent_id due_date priority = .error e')) := by
  refine ⟨?_, ?_, ?_⟩
  · intro h
    subst h
    exact ⟨rfl, rfl, rfl⟩
  · intro s e hs he
    by_cases ht : title = ""
    · subst ht
      exact ⟨_, rfl⟩
    · unfold create_task
      rw [if_neg ht]
      cases hrp : resolveParent reg parent_id "unassigned" with
      | error e2 => exact ⟨e2, rfl⟩
      | ok rp =>
        dsimp only
        rw [hs]
        dsimp only
        rw [he]
        exact ⟨e, rfl⟩
  · intro p hp hnp
    constructor
    · by_cases ht : title = ""
      · subst ht
        exact ⟨_, rfl⟩
      · unfold create_task
        rw [if_neg ht]
        cases hrp : resolveParent reg parent_id "unassigned" with
        | error e2 => exact ⟨e2, rfl⟩
        | ok rp =>
          dsimp only
          cases hts : truthyStr time_estimate with
          | none =>
            dsimp only
            rw [hp]
            dsimp only
            rw [if_pos hnp]
            exact ⟨_, rfl⟩
          | some s =>
            dsimp only
            cases hpe : parse_time_estimate s with
            | error e2 => exact ⟨e2, rfl⟩
            | ok tms =>
              dsimp only
              rw [hp]
              dsimp only
              rw [if_pos hnp]
              exact ⟨_, rfl⟩
    · by_cases ht : title = ""
      · subst ht
        exact ⟨_, rfl⟩
      · unfold create_category
        rw [if_neg ht]
        cases hrp : resolveParent reg parent_id "root" with
        | error e2 => exact ⟨e2, rfl⟩
        | ok rp =>
          dsimp only
          rw [hp]
          dsimp only
          rw [if_pos hnp]
          exact ⟨_, rfl⟩

/-- Witness for C9: a concrete out-of-range priority `"7"` is rejected by
`create_task` and `create_category` without any store call. -/
theorem create_validation_witness :
    (∃ e', create_task freshReg "T" "" none none (some "7") = .error e') ∧
    (∃ e', create_category freshReg "T" "" none (some "7") = .error e') :=
  (create_validation freshReg "T" "" none none (some "7")).2.2 "7" rfl (by decide)

/-! ### Lemmas: hierarchy assembly -/

/-- The per-entry fold step shared by the `sub`-dict and the top-level
assembly of `build_hierarchy`: process one container to its node and insert
it into the accumulated dict under its title (definitionally equal to the
destructuring lambdas in `processCatRec` / `inbox_entry` /
`build_hierarchy`). -/
def hstep (f : Reg → Doc → Reg × HNode) (tOf : Doc → String)
    (acc : Reg × List (String × HNode)) (c : Doc) : Reg × List (String × HNode) :=
  ((f acc.1 c).1, dictInsert acc.2 (tOf c) (f acc.1 c).2)

theorem dictInsert_ne_nil {β : Type} (m : List (String × β)) (k : String) (v : β) :
    dictInsert m k v ≠ [] := by
  unfold dictInsert
  split
  · rename_i h
    cases m with
    | nil => simp at h
    | cons p r => simp
  · simp

theorem mem_dictInsert {β : Type} {m : List (String × β)} {k : String} {v : β}
    {q : String × β} (h : q ∈ dictInsert m k v) : q = (k, v) ∨ q ∈ m := by
  unfold dictInsert at h
  split at h
  · rcases List.mem_map.mp h with ⟨p, hp, hq⟩
    by_cases hpk : p.1 = k
    · simp [hpk] at hq
      exact .inl hq.symm
    · simp [hpk] at hq
      exact .inr (hq ▸ hp)
  · rcases List.mem_append.mp h with h1 | h1
    · exact .inr h1
    · simp at h1
      exact .inl h1

theorem mem_keys_dictInsert {β : Type} (m : List (String × β)) (k a : String) (v : β) :
    a ∈ (dictInsert m k v).map Prod.fst ↔ a = k ∨ a ∈ m.map Prod.fst := by
  unfold dictInsert
  split
  · rename_i hmem
    simp only [List.map_map, List.mem_map]
    constructor
    · rintro ⟨p, hp, hq⟩
      by_cases hpk : p.1 = k
      · simp [Function.comp, hpk] at hq
        exact .inl hq.symm
      · simp [Function.comp, hpk] at hq
        exact .inr ⟨p, hp, hq⟩
    · rintro (rfl | ha)
      · rcases List.any_eq_true.mp hmem with ⟨p, hp, hpk⟩
        refine ⟨p, hp, ?_⟩
        simp at hpk
        simp [Function.comp, hpk]
      · rcases ha with ⟨p, hp, rfl⟩
        refine ⟨p, hp, ?_⟩
        by_cases hpk : p.1 = k <;> simp [Function.comp, hpk]
  · simp [or_comm]

theorem keys_foldl_hstep (f : Reg → Doc → Reg × HNode) (tOf : Doc → String) :
    ∀ (l : List Doc) (start : Reg × List (String × HNode)) (a : String),
      (a ∈ (List.foldl (hstep f tOf) start l).2.map Prod.fst ↔
        a ∈ start.2.map Prod.fst ∨ ∃ c ∈ l, tOf c = a) := by
  intro l
  induction l with
  | nil => simp
  | cons c r ih =>
    intro start a
    rw [List.foldl_cons, ih]
    show a ∈ (dictInsert start.2 (tOf c) ((f start.1 c).2)).map Prod.fst ∨ _ ↔ _
    rw [mem_keys_dictInsert]
    simp only [List.mem_cons]
    constructor
    · rintro ((rfl | h) | ⟨c2, hc2, rfl⟩)
      · exact .inr ⟨c, .inl rfl, rfl⟩
      · exact .inl h
      · exact .inr ⟨c2, .inr hc2, rfl⟩
    · rintro (h | ⟨c2, (rfl | hc2), rfl⟩)
      · exact .inl (.inr h)
      · exact .inl (.inl rfl)
      · exact .inr ⟨c2, hc2, rfl⟩

theorem nodeOk_mk (id : String) (pri : Option Nat) (due : Option String)
    (tasks : Option (List TaskSummary)) (sub : Option (List (String × HNode))) :
    nodeOk (.mk id pri due tasks sub) =
      ((match tasks with | none => true | some l => !l.isEmpty) &&
       (match sub with | none => true | some l => !l.isEmpty && nodeOk.subNodesOk l)) := by
  rw [nodeOk.eq_def]

theorem hasEmptyTasks_mk (id : String) (pri : Option Nat) (due : Option String)
    (tasks : Option (List TaskSummary)) (sub : Option (List (String × HNode))) :
    hasEmptyTasks (.mk id pri due tasks sub) =
      ((match tasks with | none => false | some l => l.isEmpty) ||
       (match sub with | none => false | some l => hasEmptyTasks.subHasEmptyTasks l)) := by
  rw [hasEmptyTasks.eq_def]

theorem subNodesOk_nil : nodeOk.subNodesOk [] = true := by
  rw [nodeOk.subNodesOk.eq_def]

theorem subNodesOk_cons (p : String × HNode) (r : List (String × HNode)) :
    nodeOk.subNodesOk (p :: r) = (nodeOk p.2 && nodeOk.subNodesOk r) := by
  rw [nodeOk.subNodesOk.eq_def]

theorem subHasEmptyTasks_nil : hasEmptyTasks.subHasEmptyTasks [] = false := by
  rw [hasEmptyTasks.subHasEmptyTasks.eq_def]

theorem subHasEmptyTasks_cons (p : String × HNode) (r : List (String × HNode)) :
    hasEmptyTasks.subHasEmptyTasks (p :: r) =
      (hasEmptyTasks p.2 || hasEmptyTasks.subHasEmptyTasks r) := by
  rw [hasEmptyTasks.subHasEmptyTasks.eq_def]

theorem subNodesOk_iff (l : List (String × HNode)) :
    nodeOk.subNodesOk l = true ↔ ∀ q ∈ l, nodeOk q.2 = true := by
  induction l with
  | nil => simp [subNodesOk_nil]
  | cons p r ih => simp [subNodesOk_cons, ih]

theorem subHasEmptyTasks_iff (l : List (String × HNode)) :
    hasEmptyTasks.subHasEmptyTasks l = false ↔ ∀ q ∈ l, hasEmptyTasks q.2 = false := by
  induction l with
  | nil => simp [subHasEmptyTasks_nil]
  | cons p r ih => simp [subHasEmptyTasks_cons, ih]

/-- A node satisfies the C10 invariant and has no empty-`tasks` descendant. -/
def goodNode (n : HNode) : Prop := nodeOk n = true ∧ hasEmptyTasks n = false

theorem goodNode_mk (id : String) (pri : Option Nat) (due : Option String)
    (tasks : Option (List TaskSummary)) (sub : Option (List (String × HNode)))
    (htasks : ∀ l, tasks = some l → l ≠ [])
    (hsub : ∀ l, sub = some l → l ≠ [] ∧ ∀ q ∈ l, goodNode q.2) :
    goodNode (.mk id pri due tasks sub) := by
  constructor
  · rw [nodeOk_mk, Bool.and_eq_true]
    constructor
    · cases tasks with
      | none => rfl
      | some l => simpa using htasks l rfl
    · cases sub with
      | none => rfl
      | some l =>
        obtain ⟨h1, h2⟩ := hsub l rfl
        rw [Bool.and_eq_true, subNodesOk_iff]
        exact ⟨by simpa using h1, fun q hq => (h2 q hq).1⟩
  · rw [hasEmptyTasks_mk, Bool.or_eq_false_iff]
    constructor
    · cases tasks with
      | none => rfl
      | some l => simpa using htasks l rfl
    · cases sub with
      | none => rfl
      | some l =>
        obtain ⟨h1, h2⟩ := hsub l rfl
        rw [subHasEmptyTasks_iff]
        exact fun q hq => (h2 q hq).2

theorem foldl_hstep_good (f : Reg → Doc → Reg × HNode) (tOf : Doc → String)
    (Pf : ∀ reg c, goodNode (f reg c).2) :
    ∀ (l : List Doc) (start : Reg × List (String × HNode)),
      (∀ q ∈ start.2, goodNode q.2) →
      (∀ q ∈ (List.foldl (hstep f tOf) start l).2, goodNode q.2) ∧
      ((start.2 ≠ [] ∨ l ≠ []) → (List.foldl (hstep f tOf) start l).2 ≠ []) := by
  intro l
  induction l with
  | nil =>
    intro start hstart
    refine ⟨by simpa using hstart, ?_⟩
    rintro (h | h)
    · simpa using h
    · simp at h
  | cons c r ih =>
    intro start hstart
    rw [List.foldl_cons]
    have hacc : ∀ q ∈ (hstep f tOf start c).2, goodNode q.2 := by
      intro q hq
      rcases mem_dictInsert hq with rfl | hq2
      · exact Pf start.1 c
      · exact hstart q hq2
    obtain ⟨h1, h2⟩ := ih (hstep f tOf start c) hacc
    refine ⟨h1, fun _ => h2 (.inl ?_)⟩
    exact dictInsert_ne_nil _ _ _

theorem processTasks_eq_nil_iff (reg : Reg) (l : List Doc) :
    (processTasks reg l).2 = [] ↔ l = [] := by
  cases l with
  | nil => simp [processTasks]
  | cons t ts => simp [processTasks]

/-- Every node produced by `process_category_recursive` satisfies the C10
invariant: a `tasks` key is only attached non-empty, a `sub` key is only
attached non-empty, recursively. -/
theorem processCatRec_good (categories tasks : List Doc) :
    ∀ (fuel : Nat) (reg : Reg) (item : Doc),
      goodNode (processCatRec fuel categories tasks reg item).2 := by
  intro fuel
  induction fuel with
  | zero =>
    intro reg item
    refine goodNode_mk _ _ _ _ _ ?_ ?_ <;> intro l hl <;> simp at hl
  | succ fuel ih =>
    intro reg item
    have hrw : (processCatRec (fuel + 1) categories tasks reg item).2 =
        HNode.mk (process_category reg item).2.1 (process_category reg item).2.2.1
          (process_category reg item).2.2.2
          (if ((processTasks (process_category reg item).1
                (tasks.filter (fun t => t.parentId == some item.id))).2).isEmpty then none
            else some (processTasks (process_category reg item).1
                (tasks.filter (fun t => t.parentId == some item.id))).2)
          (if (categories.filter (fun c => c.parentId == some item.id)).isEmpty then none
            else some (List.foldl
              (hstep (processCatRec fuel categories tasks) (fun d => d.title.getD "Untitled"))
              ((processTasks (process_category reg item).1
                  (tasks.filter (fun t => t.parentId == some item.id))).1, [])
              (categories.filter (fun c => c.parentId == some item.id))).2) := rfl
    rw [hrw]
    apply goodNode_mk
    · intro l hl
      split at hl
      · simp at hl
      · rename_i hne
        cases hl
        intro hcon
        rw [hcon] at hne
        simp at hne
    · intro l hl
      split at hl
      · simp at hl
      · rename_i hne
        cases hl
        obtain ⟨h1, h2⟩ := foldl_hstep_good (processCatRec fuel categories tasks)
          (fun d => d.title.getD "Untitled") (fun reg c => ih reg c)
          (categories.filter (fun c => c.parentId == some item.id))
          ((processTasks (process_category reg item).1
              (tasks.filter (fun t => t.parentId == some item.id))).1, [])
          (by simp)
        refine ⟨h2 (.inr ?_), h1⟩
        intro hcon
        rw [hcon] at hne
        simp at hne

theorem inbox_entry_good (fuel : Nat) (categories tasks : List Doc) (reg : Reg) :
    ∀ q ∈ (inbox_entry fuel categories tasks reg).2, goodNode q.2 := by
  intro q hq
  by_cases hc : (categories.filter (fun c => c.parentId == some "unassigned")).isEmpty = true
  · by_cases htk : (tasks.filter (fun t => t.parentId == some "unassigned")).isEmpty = true
    · simp [inbox_entry, hc, htk] at hq
    · have htk' : (tasks.filter (fun t => t.parentId == some "unassigned")).isEmpty = false := by
        revert htk
        cases (tasks.filter (fun t => t.parentId == some "unassigned")).isEmpty <;> simp
      simp only [inbox_entry, hc, htk', Bool.and_false, Bool.false_eq_true, if_false,
        if_true, List.mem_singleton] at hq
      subst hq
      apply goodNode_mk
      · intro l hl
        cases hl
        rw [Ne, processTasks_eq_nil_iff]
        intro hcon
        rw [hcon] at htk'
        simp at htk'
      · intro l hl
        cases hl
  · have hc' : (categories.filter (fun c => c.parentId == some "unassigned")).isEmpty = false := by
      revert hc
      cases (categories.filter (fun c => c.parentId == some "unassigned")).isEmpty <;> simp
    have hfold := foldl_hstep_good (processCatRec fuel categories tasks)
      (fun d => d.title.getD "Untitled Category")
      (fun r c => processCatRec_good categories tasks fuel r c)
      (categories.filter (fun c => c.parentId == some "unassigned")) (reg, []) (by simp)
    have hcn : (categories.filter (fun c => c.parentId == some "unassigned")) ≠ [] := by
      intro hcon
      rw [hcon] at hc'
      simp at hc'
    by_cases htk : (tasks.filter (fun t => t.parentId == some "unassigned")).isEmpty = true
    · simp only [inbox_entry, hc', htk, Bool.false_and, Bool.false_eq_true, if_false,
        if_true, List.mem_singleton] at hq
      subst hq
      apply goodNode_mk
      · intro l hl
        cases hl
      · intro l hl
        cases hl
        exact ⟨hfold.2 (.inr hcn), hfold.1⟩
    · have htk' : (tasks.filter (fun t => t.parentId == some "unassigned")).isEmpty = false := by
        revert htk
        cases (tasks.filter (fun t => t.parentId == some "unassigned")).isEmpty <;> simp
      simp only [inbox_entry, hc', htk', Bool.false_and, Bool.false_eq_true, if_false,
        List.mem_singleton] at hq
      subst hq
      apply goodNode_mk
      · intro l hl
        cases hl
        rw [Ne, processTasks_eq_nil_iff]
        intro hcon
        rw [hcon] at htk'
        simp at htk'
      · intro l hl
        cases hl
        exact ⟨hfold.2 (.inr hcn), hfold.1⟩

/-- Claim C10 — hierarchy shape invariant: in every tree `build_hierarchy`
returns, a node that has a `tasks` key holds a non-empty list and a node
that has a `sub` key holds a non-empty dict (recursively); consequently no
node of such a tree carries an empty `tasks` array, so the compact
serializer's explicit empty-array branch is never exercised on
`build_hierarchy` output. -/
theorem build_hierarchy_tasks_sub_nonempty (fuel : Nat) (categories tasks : List Doc)
    (reg : Reg) :
    ∀ q ∈ (build_hierarchy fuel categories tasks reg).2,
      nodeOk q.2 = true ∧ hasEmptyTasks q.2 = false := by
  intro q hq
  have hconv : (build_hierarchy fuel categories tasks reg).2 =
      (List.foldl
        (hstep (processCatRec fuel categories tasks) (fun d => d.title.getD "Untitled"))
        (inbox_entry fuel categories tasks reg)
        (categories.filter
          (fun c => c.parentId == some "root" || (truthyStr c.parentId == none)))).2 := rfl
  rw [hconv] at hq
  exact (foldl_hstep_good _ _ (fun r c => processCatRec_good categories tasks fuel r c) _ _
    (inbox_entry_good fuel categories tasks reg)).1 q hq

/-- Witness for C10: the Inbox node of a one-unassigned-task hierarchy. -/
theorem build_hierarchy_tasks_sub_nonempty_witness :
    nodeOk (.mk "p0" none none (some [⟨"Loose", "t1", none, none, none⟩]) none) = true ∧
    hasEmptyTasks (.mk "p0" none none (some [⟨"Loose", "t1", none, none, none⟩]) none)
      = false :=
  build_hierarchy_tasks_sub_nonempty 2 []
    [{ id := "task-9", parentId := some "unassigned", title := some "Loose" }] freshReg
    ("Inbox", .mk "p0" none none (some [⟨"Loose", "t1", none, none, none⟩]) none)
    (by rw [show (build_hierarchy 2 []
        [{ id := "task-9", parentId := some "unassigned", title := some "Loose" }]
        freshReg).2 =
      [("Inbox", .mk "p0" none none (some [⟨"Loose", "t1", none, none, none⟩]) none)]
      from rfl]
        exact List.mem_singleton.mpr rfl)

theorem filter_unassigned_nonempty (l : List Doc) :
    ¬(l.filter (fun c => c.parentId == some "unassigned")).isEmpty = true ↔
      ∃ c ∈ l, c.parentId = some "unassigned" := by
  rw [List.isEmpty_iff, List.filter_eq_nil_iff]
  push_neg
  simp

theorem inbox_entry_keys (fuel : Nat) (categories tasks : List Doc) (reg : Reg) :
    ("Inbox" ∈ (inbox_entry fuel categories tasks reg).2.map Prod.fst ↔
      (∃ c ∈ categories, c.parentId = some "unassigned") ∨
        ∃ t ∈ tasks, t.parentId = some "unassigned") := by
  by_cases hc : (categories.filter (fun c => c.parentId == some "unassigned")).isEmpty = true
  · by_cases htk : (tasks.filter (fun t => t.parentId == some "unassigned")).isEmpty = true
    · rw [iff_iff_implies_and_implies]
      constructor
      · intro h
        simp [inbox_entry, hc, htk] at h
      · rintro (h | h)
        · exact absurd ((filter_unassigned_nonempty categories).mpr h) (by simp [hc])
        · exact absurd ((filter_unassigned_nonempty tasks).mpr h) (by simp [htk])
    · have htk' : (tasks.filter (fun t => t.parentId == some "unassigned")).isEmpty = false := by
        revert htk
        cases (tasks.filter (fun t => t.parentId == some "unassigned")).isEmpty <;> simp
      rw [iff_true_right]
      · simp [inbox_entry, hc, htk']
      · exact .inr ((filter_unassigned_nonempty tasks).mp (by simp [htk']))
  · have hc' : (categories.filter (fun c => c.parentId == some "unassigned")).isEmpty = false := by
      revert hc
      cases (categories.filter (fun c => c.parentId == some "unassigned")).isEmpty <;> simp
    rw [iff_true_right]
    · by_cases htk : (tasks.filter (fun t => t.parentId == some "unassigned")).isEmpty = true
      · simp [inbox_entry, hc', htk]
      · have htk' : (tasks.filter (fun t => t.parentId == some "unassigned")).isEmpty = false := by
          revert htk
          cases (tasks.filter (fun t => t.parentId == some "unassigned")).isEmpty <;> simp
        simp [inbox_entry, hc', htk']
    · exact .inl ((filter_unassigned_nonempty categories).mp (by simp [hc']))

/-- Counterexample to C7 as stated: a root container titled `"Inbox"` (with
no unassigned member anywhere) makes the top-level mapping contain an
`"Inbox"` key, so the presence of the key does not imply an unassigned
member. -/
theorem inbox_key_without_unassigned :
    "Inbox" ∈ (build_hierarchy 2
        [{ id := "x1", parentId := some "root", title := some "Inbox" }] []
        freshReg).2.map Prod.fst ∧
    (∀ c ∈ [({ id := "x1", parentId := some "root", title := some "Inbox" } : Doc)],
      c.parentId ≠ some "unassigned") ∧
    (∀ t ∈ ([] : List Doc), t.parentId ≠ some "unassigned") := by
  refine ⟨?_, by simp, by simp⟩
  rw [show (build_hierarchy 2
      [{ id := "x1", parentId := some "root", title := some "Inbox" }] []
      freshReg).2.map Prod.fst = ["Inbox"] from rfl]
  exact List.mem_singleton.mpr rfl

/-- Claim C7 (amended) — Inbox presence and shape: provided no root container
is titled `"Inbox"` (a root container with that title also produces the key,
overwriting the synthetic entry — see the counterexample), the top-level
mapping contains an `"Inbox"` key iff some container or work-unit has
parentId `"unassigned"`; and the concrete one-unassigned-work-unit scenario
yields exactly `{"Inbox": {"id": "p0", "tasks": [...]}}` with no `sub` key. -/
theorem inbox_presence (fuel : Nat) (categories tasks : List Doc) (reg : Reg)
    (hroots : ∀ c ∈ categories,
      (c.parentId == some "root" || (truthyStr c.parentId == none)) = true →
      c.title.getD "Untitled" ≠ "Inbox") :
    ("Inbox" ∈ (build_hierarchy fuel categories tasks reg).2.map Prod.fst ↔
      (∃ c ∈ categories, c.parentId = some "unassigned") ∨
        ∃ t ∈ tasks, t.parentId = some "unassigned") ∧
    ∀ fuel2 : Nat,
      (build_hierarchy fuel2 []
        [{ id := "task-9", parentId := some "unassigned", title := some "Loose" }]
        freshReg).2 =
      [("Inbox", .mk "p0" none none (some [⟨"Loose", "t1", none, none, none⟩]) none)] := by
  constructor
  · have hconv : (build_hierarchy fuel categories tasks reg).2 =
        (List.foldl
          (hstep (processCatRec fuel categories tasks) (fun d => d.title.getD "Untitled"))
          (inbox_entry fuel categories tasks reg)
          (categories.filter
            (fun c => c.parentId == some "root" || (truthyStr c.parentId == none)))).2 := rfl
    rw [hconv, keys_foldl_hstep, inbox_entry_keys]
    constructor
    · rintro (h | ⟨c, hcf, hct⟩)
      · exact h
      · obtain ⟨hcm, hcp⟩ := List.mem_filter.mp hcf
        exact absurd hct (hroots c hcm hcp)
    · exact .inl
  · intro fuel2
    rfl

/-- Witness for C7: no root container at all (so none titled `"Inbox"`), one
unassigned work-unit. -/
theorem inbox_presence_witness :
    ("Inbox" ∈ (build_hierarchy 2 []
        [{ id := "task-9", parentId := some "unassigned", title := some "Loose" }]
        freshReg).2.map Prod.fst ↔
      (∃ c ∈ ([] : List Doc), c.parentId = some "unassigned") ∨
        ∃ t ∈ [({ id := "task-9", parentId := some "unassigned", title := some "Loose" } : Doc)],
          t.parentId = some "unassigned") ∧
    ∀ fuel2 : Nat,
      (build_hierarchy fuel2 []
        [{ id := "task-9", parentId := some "unassigned", title := some "Loose" }]
        freshReg).2 =
      [("Inbox", .mk "p0" none none (some [⟨"Loose", "t1", none, none, none⟩]) none)] :=
  inbox_presence 2 []
    [{ id := "task-9", parentId := some "unassigned", title := some "Loose" }]
    freshReg (by simp)
